import Mathlib

/-!
# Mini-Scheduler: worker loop and submission loop

A shallow embedding of `main.go`.

* The backend (the Docker client) is external.  Every answer it gives to a call of one
  loop iteration of `RunWorker` is recorded in an `Outcomes` value, and the worker is
  embedded as the function from the tasks it receives (each with the answers the backend
  gives while that task is handled) to the sequence of observable actions it performs:
  queue receives, backend calls, log lines.  Every backend call is taken to return.
* Go's `int` is the 64-bit two's complement integer: `i++` is `wrapInt (i + 1)`.
* The usage figure of `GetStats` is carried as the byte count `v.MemoryStats.Usage`; the
  `float64` quotient by `1024 * 1024` that is printed is not modelled.
-/

namespace MiniScheduler

/-! ## Configuration -/

/-- Constant `WorkerCount` of `main.go`. -/
def WorkerCount : Int := 3

/-- Constant `MemoryLimit` of `main.go`. -/
def MemoryLimit : Int := 128 * 1024 * 1024

/-! ## Machine integers -/

/-- Value of a Go `int` (64 bits, two's complement) after an arithmetic result `x`. -/
def wrapInt (x : Int) : Int :=
  (x + 9223372036854775808) % 18446744073709551616 - 9223372036854775808

/-- Largest Go `int`. -/
def maxInt : Int := 9223372036854775807

/-! ## Data model -/

/-- Type `Task` of `main.go`. -/
structure Task where
  ID : String
  Image : String
  Cmd : String
deriving DecidableEq, Repr

/-- Type `MonitorStats` of `main.go`; the usage is kept in bytes. -/
structure MonitorStats where
  MemoryUsageBytes : Nat
deriving DecidableEq, Repr

/-- Go `error` value: `none` is `nil`, `some msg` an error. -/
abbrev GoError := Option String

/-- Arguments of the `ContainerCreate` call: `Config.Image`, `Config.Cmd`,
`HostConfig.Resources.Memory` and the container name. -/
structure CreateRequest where
  Image : String
  Cmd : List String
  Memory : Int
  Name : String
deriving DecidableEq, Repr

/-- Answer of `ContainerCreate`: the response carrying the container ID, or an error. -/
inductive CreateResult where
  | ok (ID : String)
  | err (e : String)
deriving DecidableEq, Repr

/-- Answer of `ContainerStats` followed by the JSON decoding of the body. -/
inductive StatsResult where
  | err (e : String)
  | badBody (e : String)
  | body (usage : Nat)
deriving DecidableEq, Repr

/-- Case taken by the `select` over the two channels returned by `ContainerWait`. -/
inductive WaitResult where
  | errCh (err : GoError)
  | statusCh (status : Int)
deriving DecidableEq, Repr

/-- Answers of the backend to the calls made while one task is handled. -/
structure Outcomes where
  create : CreateResult
  start : GoError
  stats : StatsResult
  wait : WaitResult
deriving DecidableEq, Repr

/-- Observable actions of a worker. -/
inductive Event where
  | recv (task : Option Task)
  | printStarting (workerID : Int) (taskID : String)
  | containerCreate (req : CreateRequest) (res : CreateResult)
  | logCreateFailed (taskID : String) (e : String)
  | containerStart (containerID : String) (res : GoError)
  | logStartFailed (taskID : String) (e : String)
  | sleep (seconds : Nat)
  | containerStats (containerID : String) (stream : Bool)
  | printMonitor (taskID : String) (usage : MonitorStats)
  | containerWait (containerID : String)
  | selected (res : WaitResult)
  | logWaitError (taskID : String) (e : String)
  | printFinished (workerID : Int) (taskID : String)
  | containerRemove (containerID : String)
  | wgDone
deriving DecidableEq, Repr

/-- Backend calls, without their answers. -/
inductive Call where
  | create (req : CreateRequest)
  | start (containerID : String)
  | stats (containerID : String)
  | wait (containerID : String)
  | remove (containerID : String)
deriving DecidableEq, Repr

/-- Lines a worker prints or logs. -/
inductive Report where
  | starting (workerID : Int) (taskID : String)
  | createFailed (taskID : String) (e : String)
  | startFailed (taskID : String) (e : String)
  | monitor (taskID : String) (usage : MonitorStats)
  | waitError (taskID : String) (e : String)
  | finished (workerID : Int) (taskID : String)
deriving DecidableEq, Repr

/-- The backend call an event is, if it is one. -/
def Event.call? : Event → Option Call
  | .containerCreate req _ => some (.create req)
  | .containerStart cid _ => some (.start cid)
  | .containerStats cid _ => some (.stats cid)
  | .containerWait cid => some (.wait cid)
  | .containerRemove cid => some (.remove cid)
  | _ => none

/-- The printed or logged line an event is, if it is one. -/
def Event.report? : Event → Option Report
  | .printStarting w t => some (.starting w t)
  | .logCreateFailed t e => some (.createFailed t e)
  | .logStartFailed t e => some (.startFailed t e)
  | .printMonitor t u => some (.monitor t u)
  | .logWaitError t e => some (.waitError t e)
  | .printFinished w t => some (.finished w t)
  | _ => none

/-- The request of a create call. -/
def Event.createRequest? : Event → Option CreateRequest
  | .containerCreate req _ => some req
  | _ => none

/-! ## Monitor -/

/-- Function `GetStats`: one non-streaming `ContainerStats` call; its error or the decoding
error is returned, otherwise the usage read from the body. -/
def GetStats (containerID : String) (ans : StatsResult) :
    List Event × Except String MonitorStats :=
  let call := [Event.containerStats containerID false]
  match ans with
  | .err e => (call, .error e)
  | .badBody e => (call, .error e)
  | .body usage => (call, .ok { MemoryUsageBytes := usage })

/-! ## Scheduler -/

/-- Body of the `for task := range s.Queue` loop of `RunWorker`, for the received `task`;
a `continue` ends the body. -/
def RunWorker.iteration (workerID : Int) (task : Task) (o : Outcomes) : List Event :=
  Event.printStarting workerID task.ID ::
  -- 1. Create Container with RESOURCE LIMITS
  Event.containerCreate
    { Image := task.Image, Cmd := ["sh", "-c", task.Cmd], Memory := MemoryLimit,
      Name := task.ID } o.create ::
  match o.create with
  | .err e => [Event.logCreateFailed task.ID e]
  | .ok respID =>
    -- 2. Start Container
    Event.containerStart respID o.start ::
    match o.start with
    | some e => [Event.logStartFailed task.ID e]
    | none =>
      -- 3. Monitor Resource Usage
      Event.sleep 1 ::
      ((GetStats respID o.stats).1 ++
        (match (GetStats respID o.stats).2 with
          | .ok stats => [Event.printMonitor task.ID stats]
          | .error _ => []) ++
        -- 4. Wait for Completion
        (Event.containerWait respID :: Event.selected o.wait ::
          (match o.wait with
            | .errCh (some e) => [Event.logWaitError task.ID e]
            | .errCh none => []
            | .statusCh _ => [Event.printFinished workerID task.ID])) ++
        -- 5. Cleanup
        [Event.containerRemove respID])

/-- Method `Scheduler.RunWorker`: the worker receives the tasks of `jobs` one after the other
and runs the loop body on each; when the queue is closed and drained the loop ends and the
deferred `Wg.Done` runs. -/
def RunWorker (workerID : Int) : List (Task × Outcomes) → List Event
  | [] => [Event.recv none, Event.wgDone]
  | (task, o) :: rest =>
    Event.recv (some task) :: (RunWorker.iteration workerID task o ++ RunWorker workerID rest)

/-! ## Main -/

/-- Loop `for i := 1; i <= WorkerCount; i++` of `main`: the identifiers of the workers
started, from loop variable `i` on. -/
def startWorkersFrom : Nat → Int → Option (List Int)
  | 0, _ => none
  | fuel + 1, i =>
    if i ≤ WorkerCount then (startWorkersFrom fuel (wrapInt (i + 1))).map (fun ws => i :: ws)
    else some []

/-- Actions of the submitting goroutine of `main`. -/
inductive SubmitEvent where
  | send (task : Task)
  | printSubmitted (taskID : String)
  | close
deriving DecidableEq, Repr

/-- Loop `for i := 1; i <= *count; i++` of the submitting goroutine followed by the `close`,
from loop variable `i` on; `none` when `fuel` loop tests do not reach the end. -/
def submitFrom (count : Int) (image cmd : String) : Nat → Int → Option (List SubmitEvent)
  | 0, _ => none
  | fuel + 1, i =>
    if i ≤ count then
      let taskID := "job-" ++ toString i
      (submitFrom count image cmd fuel (wrapInt (i + 1))).map (fun evs =>
        SubmitEvent.send { ID := taskID, Image := image, Cmd := cmd } ::
          SubmitEvent.printSubmitted taskID :: evs)
    else some [SubmitEvent.close]

/-- The submitting goroutine of `main`. -/
def submitJobs (fuel : Nat) (count : Int) (image cmd : String) : Option (List SubmitEvent) :=
  submitFrom count image cmd fuel 1

/-- The worker-starting loop of `main`. -/
def startWorkers (fuel : Nat) : Option (List Int) :=
  startWorkersFrom fuel 1

/-! ## Observations on runs -/

/-- The task a receive event delivers (`none`: the queue is closed and drained), if the
event is a receive. -/
def Event.recv? : Event → Option (Option Task)
  | .recv t => some t
  | _ => none

/-- The event is the return of a successful start call: a unit enters the Started state. -/
def Event.isStarted : Event → Bool
  | .containerStart _ none => true
  | _ => false

/-- The event is the return of the wait: the `select` on the two channels has fired. -/
def Event.isAwaited : Event → Bool
  | .selected _ => true
  | _ => false

/-- The event is a create call. -/
def Event.isCreate : Event → Bool
  | .containerCreate _ _ => true
  | _ => false

/-- Number of units started and not yet awaited to exit after the events `tr`. -/
def startedUnits (tr : List Event) : Int :=
  (tr.countP Event.isStarted : Int) - (tr.countP Event.isAwaited : Int)

/-- Events of worker `i` in a run of the whole scheduler, whose events are tagged with the
worker that performs them. -/
def eventsOf (i : Int) (g : List (Int × Event)) : List Event :=
  (g.filter (fun x => x.1 = i)).map Prod.snd

/-- One worker drives one unit at a time: from the state `busy` (a unit is started and not
yet awaited), the state after `tr`, or `none` when `tr` starts a unit or issues a create
while busy, or awaits a unit while not busy. -/
def driveOne : Bool → List Event → Option Bool
  | busy, [] => some busy
  | busy, e :: tr =>
    if e.isStarted then (if busy then none else driveOne true tr)
    else if e.isAwaited then (if busy then driveOne false tr else none)
    else if e.isCreate then (if busy then none else driveOne busy tr)
    else driveOne busy tr

/-- Backend calls of a task that runs its whole lifecycle on the unit `cid`: create, start,
monitor, wait and remove. -/
def lifecycleCalls (t : Task) (cid : String) : List Call :=
  [Call.create ⟨t.Image, ["sh", "-c", t.Cmd], MemoryLimit, t.ID⟩, Call.start cid,
   Call.stats cid, Call.wait cid, Call.remove cid]

/-- A sample assignment of tasks to workers: worker `i` receives `job-i`, which succeeds. -/
def sampleJobs (i : Int) : List (Task × Outcomes) :=
  [(⟨"job-" ++ toString i, "alpine", "sleep 2"⟩,
    Outcomes.mk (.ok ("c" ++ toString i)) none (.body 1048576) (.statusCh 0))]

/-- A sample run of the scheduler up to the instant where the three workers have each started
a unit. -/
def sampleRun : List (Int × Event) :=
  [(1, .recv (some ⟨"job-1", "alpine", "sleep 2"⟩)),
   (2, .recv (some ⟨"job-2", "alpine", "sleep 2"⟩)),
   (1, .printStarting 1 "job-1"),
   (3, .recv (some ⟨"job-3", "alpine", "sleep 2"⟩)),
   (1, .containerCreate ⟨"alpine", ["sh", "-c", "sleep 2"], 134217728, "job-1"⟩ (.ok "c1")),
   (2, .printStarting 2 "job-2"),
   (3, .printStarting 3 "job-3"),
   (2, .containerCreate ⟨"alpine", ["sh", "-c", "sleep 2"], 134217728, "job-2"⟩ (.ok "c2")),
   (1, .containerStart "c1" none),
   (3, .containerCreate ⟨"alpine", ["sh", "-c", "sleep 2"], 134217728, "job-3"⟩ (.ok "c3")),
   (3, .containerStart "c3" none),
   (2, .containerStart "c2" none)]

/-! ## Structure of a worker's run -/

theorem RunWorker_append (w : Int) (pre post : List (Task × Outcomes)) :
    RunWorker w (pre ++ post) =
      pre.flatMap (fun j => Event.recv (some j.1) :: RunWorker.iteration w j.1 j.2) ++
        RunWorker w post := by
  induction pre with
  | nil => simp
  | cons j pre ih =>
    obtain ⟨t, o⟩ := j
    simp [RunWorker, ih]

theorem RunWorker_head (w : Int) (post : List (Task × Outcomes)) :
    (RunWorker w post).head? = some (Event.recv (post.head?.map Prod.fst)) := by
  cases post with
  | nil => simp [RunWorker]
  | cons j post => obtain ⟨t, o⟩ := j; simp [RunWorker]

theorem iteration_create_err (w : Int) (t : Task) (o : Outcomes) (e : String)
    (hc : o.create = .err e) :
    RunWorker.iteration w t o =
      [Event.printStarting w t.ID,
       Event.containerCreate ⟨t.Image, ["sh", "-c", t.Cmd], MemoryLimit, t.ID⟩ (.err e),
       Event.logCreateFailed t.ID e] := by
  simp [RunWorker.iteration, hc]

theorem iteration_start_err (w : Int) (t : Task) (o : Outcomes) (cid e : String)
    (hc : o.create = .ok cid) (hs : o.start = some e) :
    RunWorker.iteration w t o =
      [Event.printStarting w t.ID,
       Event.containerCreate ⟨t.Image, ["sh", "-c", t.Cmd], MemoryLimit, t.ID⟩ (.ok cid),
       Event.containerStart cid (some e),
       Event.logStartFailed t.ID e] := by
  simp [RunWorker.iteration, hc, hs]

theorem iteration_started (w : Int) (t : Task) (o : Outcomes) (cid : String)
    (hc : o.create = .ok cid) (hs : o.start = none) :
    RunWorker.iteration w t o =
      [Event.printStarting w t.ID,
       Event.containerCreate ⟨t.Image, ["sh", "-c", t.Cmd], MemoryLimit, t.ID⟩ (.ok cid),
       Event.containerStart cid none,
       Event.sleep 1,
       Event.containerStats cid false] ++
      (match o.stats with
        | .body usage => [Event.printMonitor t.ID ⟨usage⟩]
        | _ => []) ++
      [Event.containerWait cid, Event.selected o.wait] ++
      (match o.wait with
        | .errCh (some e) => [Event.logWaitError t.ID e]
        | .errCh none => []
        | .statusCh _ => [Event.printFinished w t.ID]) ++
      [Event.containerRemove cid] := by
  simp only [RunWorker.iteration, hc, hs]
  cases o.stats <;> simp [GetStats]

theorem iteration_calls_started (w : Int) (t : Task) (o : Outcomes) (cid : String)
    (hc : o.create = .ok cid) (hs : o.start = none) :
    (RunWorker.iteration w t o).filterMap Event.call? =
      [Call.create ⟨t.Image, ["sh", "-c", t.Cmd], MemoryLimit, t.ID⟩, Call.start cid,
       Call.stats cid, Call.wait cid, Call.remove cid] := by
  rw [iteration_started w t o cid hc hs]
  rcases o.stats with e | e | u <;> rcases o.wait with (_ | e) | st <;>
    simp [Event.call?]

theorem iteration_createRequest (w : Int) (t : Task) (o : Outcomes) :
    (RunWorker.iteration w t o).filterMap Event.createRequest? =
      [⟨t.Image, ["sh", "-c", t.Cmd], MemoryLimit, t.ID⟩] := by
  obtain ⟨c, s, st, wt⟩ := o
  rcases c with cid | e
  · rcases s with _ | e
    · rw [iteration_started w t _ cid rfl rfl]
      rcases st with e | e | u <;> rcases wt with (_ | e) | x <;>
        simp [Event.createRequest?]
    · rw [iteration_start_err w t _ cid e rfl rfl]
      simp [Event.createRequest?]
  · rw [iteration_create_err w t _ e rfl]
    simp [Event.createRequest?]

/-! ## Claims on the worker loop -/

/-- C2: when the create call of a received task fails, the worker's actions for that task
are the start line, the create call and the failure log, so no start, stats, wait or remove
call is made for it, and the action that follows is the next receive on the queue. -/
theorem create_failure_skips_lifecycle (w : Int) (pre post : List (Task × Outcomes))
    (t : Task) (o : Outcomes) (e : String) (hc : o.create = .err e) :
    RunWorker w (pre ++ (t, o) :: post) =
        pre.flatMap (fun j => Event.recv (some j.1) :: RunWorker.iteration w j.1 j.2) ++
          [Event.recv (some t),
           Event.printStarting w t.ID,
           Event.containerCreate ⟨t.Image, ["sh", "-c", t.Cmd], MemoryLimit, t.ID⟩ (.err e),
           Event.logCreateFailed t.ID e] ++
          RunWorker w post ∧
      (RunWorker.iteration w t o).filterMap Event.call? =
        [Call.create ⟨t.Image, ["sh", "-c", t.Cmd], MemoryLimit, t.ID⟩] ∧
      (RunWorker w post).head? = some (Event.recv (post.head?.map Prod.fst)) := by
  refine ⟨?_, ?_, RunWorker_head w post⟩
  · rw [RunWorker_append]
    simp [RunWorker, iteration_create_err w t o e hc]
  · rw [iteration_create_err w t o e hc]
    simp [Event.call?]

theorem create_failure_skips_lifecycle_witness :
    (Outcomes.mk (.err "No such image") none (.body 0) (.statusCh 0)).create
        = .err "No such image" ∧
      RunWorker 1 ([] ++ [(⟨"job-1", "alpine", "sleep 2"⟩,
          Outcomes.mk (.err "No such image") none (.body 0) (.statusCh 0))]) =
        [Event.recv (some ⟨"job-1", "alpine", "sleep 2"⟩),
         Event.printStarting 1 "job-1",
         Event.containerCreate ⟨"alpine", ["sh", "-c", "sleep 2"], MemoryLimit, "job-1"⟩
           (.err "No such image"),
         Event.logCreateFailed "job-1" "No such image",
         Event.recv none, Event.wgDone] := by
  refine ⟨rfl, ?_⟩
  have h := (create_failure_skips_lifecycle 1 [] [] ⟨"job-1", "alpine", "sleep 2"⟩
    (Outcomes.mk (.err "No such image") none (.body 0) (.statusCh 0)) "No such image" rfl).1
  simpa [RunWorker] using h

/-- C3: for a received task whose create and start succeed and whose wait ends on the
status channel, the backend calls of the worker are create, start, stats, wait, remove, once
each in this order, the last four on the container ID answered by the create, and the
finished line is printed after the wait and before the remove. -/
theorem successful_task_lifecycle (w : Int) (pre post : List (Task × Outcomes))
    (t : Task) (o : Outcomes) (cid : String) (status : Int)
    (hc : o.create = .ok cid) (hs : o.start = none) (hw : o.wait = .statusCh status) :
    RunWorker w (pre ++ (t, o) :: post) =
        pre.flatMap (fun j => Event.recv (some j.1) :: RunWorker.iteration w j.1 j.2) ++
          Event.recv (some t) :: RunWorker.iteration w t o ++ RunWorker w post ∧
      (RunWorker.iteration w t o).filterMap Event.call? =
        [Call.create ⟨t.Image, ["sh", "-c", t.Cmd], MemoryLimit, t.ID⟩, Call.start cid,
         Call.stats cid, Call.wait cid, Call.remove cid] ∧
      RunWorker.iteration w t o =
        [Event.printStarting w t.ID,
         Event.containerCreate ⟨t.Image, ["sh", "-c", t.Cmd], MemoryLimit, t.ID⟩ (.ok cid),
         Event.containerStart cid none,
         Event.sleep 1,
         Event.containerStats cid false] ++
        (match o.stats with
          | .body usage => [Event.printMonitor t.ID ⟨usage⟩]
          | _ => []) ++
        [Event.containerWait cid, Event.selected (.statusCh status),
         Event.printFinished w t.ID,
         Event.containerRemove cid] := by
  refine ⟨?_, iteration_calls_started w t o cid hc hs, ?_⟩
  · rw [RunWorker_append]
    simp [RunWorker]
  · rw [iteration_started w t o cid hc hs, hw]
    simp

theorem successful_task_lifecycle_witness :
    RunWorker.iteration 2 ⟨"job-1", "alpine", "sleep 2"⟩
        (Outcomes.mk (.ok "c1") none (.body 1048576) (.statusCh 0)) =
      [Event.printStarting 2 "job-1",
       Event.containerCreate ⟨"alpine", ["sh", "-c", "sleep 2"], MemoryLimit, "job-1"⟩
         (.ok "c1"),
       Event.containerStart "c1" none,
       Event.sleep 1,
       Event.containerStats "c1" false,
       Event.printMonitor "job-1" ⟨1048576⟩,
       Event.containerWait "c1", Event.selected (.statusCh 0),
       Event.printFinished 2 "job-1",
       Event.containerRemove "c1"] :=
  (successful_task_lifecycle 2 [] [] ⟨"job-1", "alpine", "sleep 2"⟩
    (Outcomes.mk (.ok "c1") none (.body 1048576) (.statusCh 0)) "c1" 0 rfl rfl rfl).2.2

/-- C5 at a task whose create succeeds and whose start fails: the worker receives the next
task, and later ends, without any remove call for the created container `c1`. -/
theorem start_failure_leaves_unit :
    RunWorker 1
        [(⟨"job-1", "alpine", "sleep 2"⟩,
            Outcomes.mk (.ok "c1") (some "cannot start") (.body 0) (.statusCh 0)),
         (⟨"job-2", "alpine", "sleep 2"⟩,
            Outcomes.mk (.err "no space left") none (.body 0) (.statusCh 0))] =
      [Event.recv (some ⟨"job-1", "alpine", "sleep 2"⟩),
       Event.printStarting 1 "job-1",
       Event.containerCreate ⟨"alpine", ["sh", "-c", "sleep 2"], 134217728, "job-1"⟩
         (.ok "c1"),
       Event.containerStart "c1" (some "cannot start"),
       Event.logStartFailed "job-1" "cannot start",
       Event.recv (some ⟨"job-2", "alpine", "sleep 2"⟩),
       Event.printStarting 1 "job-2",
       Event.containerCreate ⟨"alpine", ["sh", "-c", "sleep 2"], 134217728, "job-2"⟩
         (.err "no space left"),
       Event.logCreateFailed "job-2" "no space left",
       Event.recv none,
       Event.wgDone] ∧
    Event.containerRemove "c1" ∉
      RunWorker 1
        [(⟨"job-1", "alpine", "sleep 2"⟩,
            Outcomes.mk (.ok "c1") (some "cannot start") (.body 0) (.statusCh 0)),
         (⟨"job-2", "alpine", "sleep 2"⟩,
            Outcomes.mk (.err "no space left") none (.body 0) (.statusCh 0))] := by
  decide

/-- C6: the create calls of a worker are one per received task, in queue order, each
requesting the task's image, the command `sh -c` followed by the task's command, the task's
ID as name and the memory limit `MemoryLimit`, which is 128 * 1024 * 1024 = 134217728
bytes whatever the task and the worker. -/
theorem create_request_fields (w : Int) (jobs : List (Task × Outcomes)) :
    (RunWorker w jobs).filterMap Event.createRequest? =
        jobs.map (fun j =>
          { Image := j.1.Image, Cmd := ["sh", "-c", j.1.Cmd], Memory := 134217728,
            Name := j.1.ID }) ∧
      MemoryLimit = 128 * 1024 * 1024 ∧ MemoryLimit = 134217728 := by
  refine ⟨?_, rfl, by decide⟩
  induction jobs with
  | nil => simp [RunWorker, Event.createRequest?]
  | cons j jobs ih =>
    obtain ⟨t, o⟩ := j
    have hm : MemoryLimit = 134217728 := by decide
    simp [RunWorker, List.filterMap_append, Event.createRequest?, iteration_createRequest,
      ih, hm]

/-- C8 as stated fails when the error channel fires with a nil error: the outcome is not a
non-nil error, yet the worker does not report the task as finished (it prints and logs
nothing for the wait). -/
theorem nil_wait_error_not_reported :
    (∀ e : String, (WaitResult.errCh none) ≠ WaitResult.errCh (some e)) ∧
    RunWorker.iteration 1 ⟨"job-1", "alpine", "sleep 2"⟩
        (Outcomes.mk (.ok "c1") none (.body 1048576) (.errCh none)) =
      [Event.printStarting 1 "job-1",
       Event.containerCreate ⟨"alpine", ["sh", "-c", "sleep 2"], 134217728, "job-1"⟩
         (.ok "c1"),
       Event.containerStart "c1" none,
       Event.sleep 1,
       Event.containerStats "c1" false,
       Event.printMonitor "job-1" ⟨1048576⟩,
       Event.containerWait "c1", Event.selected (.errCh none),
       Event.containerRemove "c1"] ∧
    Event.printFinished 1 "job-1" ∉
      RunWorker.iteration 1 ⟨"job-1", "alpine", "sleep 2"⟩
        (Outcomes.mk (.ok "c1") none (.body 1048576) (.errCh none)) := by
  refine ⟨?_, by decide, by decide⟩
  intro e h
  cases h

/-- C8, amended: in the wait step of a started task, a wait error is logged exactly when the
error channel fires with a non-nil error (and the logged error is that one), the finished
line is printed exactly when the status channel fires, and when the error channel fires
with a nil error neither is printed; the remove call follows in every case. -/
theorem wait_outcome_reports (w : Int) (t : Task) (o : Outcomes) (cid : String)
    (hc : o.create = .ok cid) (hs : o.start = none) :
    (∀ id e, Event.logWaitError id e ∈ RunWorker.iteration w t o ↔
        (id = t.ID ∧ o.wait = .errCh (some e))) ∧
      (∀ w0 id, Event.printFinished w0 id ∈ RunWorker.iteration w t o ↔
        (w0 = w ∧ id = t.ID ∧ ∃ status, o.wait = .statusCh status)) ∧
      (o.wait = .errCh none →
        (RunWorker.iteration w t o).filterMap Event.report? =
          Report.starting w t.ID ::
            (match o.stats with
              | .body usage => [Report.monitor t.ID ⟨usage⟩]
              | _ => [])) ∧
      (RunWorker.iteration w t o).getLast? = some (Event.containerRemove cid) := by
  rw [iteration_started w t o cid hc hs]
  refine ⟨?_, ?_, ?_, ?_⟩
  · intro id e
    rcases o.stats with e1 | e1 | u <;> rcases o.wait with (_ | e2) | st <;>
      simp <;> tauto
  · intro w0 id
    rcases o.stats with e1 | e1 | u <;> rcases o.wait with (_ | e2) | st <;>
      simp
  · intro hw
    rw [hw]
    rcases o.stats with e1 | e1 | u <;> simp [Event.report?]
  · rcases o.stats with e1 | e1 | u <;> rcases o.wait with (_ | e2) | st <;> simp

theorem wait_outcome_reports_witness :
    (Event.logWaitError "job-1" "connection reset" ∈
        RunWorker.iteration 1 ⟨"job-1", "alpine", "sleep 2"⟩
          (Outcomes.mk (.ok "c1") none (.err "no stats") (.errCh (some "connection reset"))) ↔
      ("job-1" = (Task.mk "job-1" "alpine" "sleep 2").ID ∧
        (Outcomes.mk (.ok "c1") none (.err "no stats")
          (.errCh (some "connection reset"))).wait = .errCh (some "connection reset"))) :=
  (wait_outcome_reports 1 ⟨"job-1", "alpine", "sleep 2"⟩
    (Outcomes.mk (.ok "c1") none (.err "no stats") (.errCh (some "connection reset")))
    "c1" rfl rfl).1 "job-1" "connection reset"

/-- C9: once create and start have succeeded for a received task, the worker makes one stats
call, then one wait call, then one remove call, all on the created container; these calls
are the same for every answer to the stats call and every end of the wait, and the answer
to the stats call changes only whether the usage line is printed. -/
theorem started_task_runs_to_cleanup (w : Int) (pre post : List (Task × Outcomes))
    (t : Task) (o : Outcomes) (cid : String)
    (hc : o.create = .ok cid) (hs : o.start = none) :
    RunWorker w (pre ++ (t, o) :: post) =
        pre.flatMap (fun j => Event.recv (some j.1) :: RunWorker.iteration w j.1 j.2) ++
          Event.recv (some t) :: RunWorker.iteration w t o ++ RunWorker w post ∧
      (∀ stats wait,
        (RunWorker.iteration w t { o with stats := stats, wait := wait }).filterMap Event.call? =
          [Call.create ⟨t.Image, ["sh", "-c", t.Cmd], MemoryLimit, t.ID⟩, Call.start cid,
           Call.stats cid, Call.wait cid, Call.remove cid]) ∧
      (∀ stats,
        (RunWorker.iteration w t { o with stats := stats }).filterMap Event.report? =
          [Report.starting w t.ID] ++
          (match stats with
            | .body usage => [Report.monitor t.ID ⟨usage⟩]
            | _ => []) ++
          (match o.wait with
            | .errCh (some e) => [Report.waitError t.ID e]
            | .errCh none => []
            | .statusCh _ => [Report.finished w t.ID])) := by
  refine ⟨?_, ?_, ?_⟩
  · rw [RunWorker_append]
    simp [RunWorker]
  · intro stats wait
    exact iteration_calls_started w t _ cid hc hs
  · intro stats
    rw [iteration_started w t { o with stats := stats } cid hc hs]
    rcases stats with e1 | e1 | u <;> rcases o.wait with (_ | e2) | st <;>
      simp [Event.report?]

theorem started_task_runs_to_cleanup_witness :
    (RunWorker.iteration 3 ⟨"job-4", "alpine", "sleep 2"⟩
        { (Outcomes.mk (.ok "c4") none (.body 5) (.statusCh 0)) with
          stats := .err "stats unavailable",
          wait := .errCh (some "connection reset") }).filterMap Event.call? =
      [Call.create ⟨"alpine", ["sh", "-c", "sleep 2"], MemoryLimit, "job-4"⟩,
       Call.start "c4", Call.stats "c4", Call.wait "c4", Call.remove "c4"] :=
  (started_task_runs_to_cleanup 3 [] [] ⟨"job-4", "alpine", "sleep 2"⟩
    (Outcomes.mk (.ok "c4") none (.body 5) (.statusCh 0)) "c4" rfl rfl).2.1
    (.err "stats unavailable") (.errCh (some "connection reset"))

/-- C10: when the create call of a received task succeeds and its start call fails, the
worker logs the start failure and makes no stats, wait or remove call for the created
container; the action that follows is the next receive on the queue. -/
theorem start_failure_aborts_task (w : Int) (pre post : List (Task × Outcomes))
    (t : Task) (o : Outcomes) (cid e : String)
    (hc : o.create = .ok cid) (hs : o.start = some e) :
    RunWorker w (pre ++ (t, o) :: post) =
        pre.flatMap (fun j => Event.recv (some j.1) :: RunWorker.iteration w j.1 j.2) ++
          [Event.recv (some t),
           Event.printStarting w t.ID,
           Event.containerCreate ⟨t.Image, ["sh", "-c", t.Cmd], MemoryLimit, t.ID⟩ (.ok cid),
           Event.containerStart cid (some e),
           Event.logStartFailed t.ID e] ++
          RunWorker w post ∧
      (RunWorker.iteration w t o).filterMap Event.call? =
        [Call.create ⟨t.Image, ["sh", "-c", t.Cmd], MemoryLimit, t.ID⟩, Call.start cid] ∧
      (RunWorker w post).head? = some (Event.recv (post.head?.map Prod.fst)) := by
  refine ⟨?_, ?_, RunWorker_head w post⟩
  · rw [RunWorker_append]
    simp [RunWorker, iteration_start_err w t o cid e hc hs]
  · rw [iteration_start_err w t o cid e hc hs]
    simp [Event.call?]

theorem start_failure_aborts_task_witness :
    (RunWorker.iteration 1 ⟨"job-1", "alpine", "sleep 2"⟩
        (Outcomes.mk (.ok "c1") (some "cannot start") (.body 0) (.statusCh 0))).filterMap
          Event.call? =
      [Call.create ⟨"alpine", ["sh", "-c", "sleep 2"], MemoryLimit, "job-1"⟩,
       Call.start "c1"] :=
  (start_failure_aborts_task 1 [] [] ⟨"job-1", "alpine", "sleep 2"⟩
    (Outcomes.mk (.ok "c1") (some "cannot start") (.body 0) (.statusCh 0))
    "c1" "cannot start" rfl rfl).2.1

/-! ## The submission loop -/

theorem wrapInt_eq_self (x : Int) (hlo : -9223372036854775808 ≤ x)
    (hhi : x ≤ 9223372036854775807) : wrapInt x = x := by
  unfold wrapInt
  omega

theorem wrapInt_le_maxInt (x : Int) : wrapInt x ≤ maxInt := by
  unfold wrapInt maxInt
  omega

theorem submitFrom_maxInt (image cmd : String) (fuel : Nat) :
    ∀ i : Int, i ≤ maxInt → submitFrom maxInt image cmd fuel i = none := by
  induction fuel with
  | zero => intro i _; rfl
  | succ fuel ih =>
    intro i hi
    simp [submitFrom, hi, ih (wrapInt (i + 1)) (wrapInt_le_maxInt _)]

theorem submitFrom_eq (n : Nat) (image cmd : String) (hn : (n : Int) < maxInt) (m : Nat) :
    ∀ (j extra : Nat), j + m = n →
      submitFrom (n : Int) image cmd (m + 1 + extra) ((j : Int) + 1) =
        some ((List.range m).flatMap (fun k =>
            [SubmitEvent.send ⟨"job-" ++ toString (j + k + 1), image, cmd⟩,
             SubmitEvent.printSubmitted ("job-" ++ toString (j + k + 1))]) ++
          [SubmitEvent.close]) := by
  induction m with
  | zero =>
    intro j extra hj
    have h : ¬ ((j : Int) + 1 ≤ (n : Int)) := by omega
    have hf : 0 + 1 + extra = extra + 1 := by omega
    rw [hf, submitFrom, if_neg h]
    simp
  | succ m ih =>
    intro j extra hj
    have h : (j : Int) + 1 ≤ (n : Int) := by omega
    have hw : wrapInt ((j : Int) + 1 + 1) = ((j + 1 : Nat) : Int) + 1 := by
      rw [wrapInt_eq_self] <;> unfold maxInt at hn <;> push_cast <;> omega
    have hs : toString ((j : Int) + 1) = toString (j + 1) := by
      have : (j : Int) + 1 = ((j + 1 : Nat) : Int) := by push_cast; rfl
      rw [this]; rfl
    have hf : m + 1 + 1 + extra = (m + 1 + extra) + 1 := by omega
    rw [hf, submitFrom, if_pos h, hw, ih (j + 1) extra (by omega), hs]
    simp only [Option.map_some', List.range_succ_eq_map, List.flatMap_cons, List.flatMap_map,
      List.cons_append, List.nil_append, Function.comp_def]
    simp [Nat.add_assoc, Nat.add_comm 1]

/-- C1 as stated fails at the largest task count an `int` holds: the loop test
`i <= *count` is then true for every value of `i`, the increment of `i` wraps around, and
no number of loop steps ends the loop and reaches the `close`. -/
theorem submission_at_maxInt_never_closes :
    ¬ ∃ (fuel : Nat) (evs : List SubmitEvent),
        submitJobs fuel 9223372036854775807 "alpine" "sleep 2" = some evs := by
  rintro ⟨fuel, evs, h⟩
  have h0 : submitJobs fuel 9223372036854775807 "alpine" "sleep 2" = none :=
    submitFrom_maxInt "alpine" "sleep 2" fuel 1 (by decide)
  rw [h0] at h
  cases h

/-- C1, amended: for every task count `n` with `0 ≤ n < 2^63 - 1` and every image and
command, the submission loop sends exactly `n` tasks, the `i`-th one (`i = 1..n`) with ID
`job-` followed by the decimal rendering of `i` and with the given image and command, in
increasing order of `i`, and then closes the queue, once; `n + 1` loop tests are enough. -/
theorem submission_enqueues_jobs (n : Nat) (image cmd : String)
    (hn : (n : Int) < 9223372036854775807) (fuel : Nat) (hf : n < fuel) :
    submitJobs fuel (n : Int) image cmd =
      some ((List.range n).flatMap (fun k =>
          [SubmitEvent.send ⟨"job-" ++ toString (k + 1), image, cmd⟩,
           SubmitEvent.printSubmitted ("job-" ++ toString (k + 1))]) ++
        [SubmitEvent.close]) := by
  obtain ⟨extra, rfl⟩ : ∃ extra, fuel = n + 1 + extra := ⟨fuel - (n + 1), by omega⟩
  have h := submitFrom_eq n image cmd hn n 0 extra (by omega)
  simpa [submitJobs] using h

theorem submission_enqueues_jobs_witness :
    ((3 : Nat) : Int) < 9223372036854775807 ∧ 3 < 4 ∧
      submitJobs 4 ((3 : Nat) : Int) "alpine" "sleep 2" =
        some [SubmitEvent.send ⟨"job-1", "alpine", "sleep 2"⟩,
              SubmitEvent.printSubmitted "job-1",
              SubmitEvent.send ⟨"job-2", "alpine", "sleep 2"⟩,
              SubmitEvent.printSubmitted "job-2",
              SubmitEvent.send ⟨"job-3", "alpine", "sleep 2"⟩,
              SubmitEvent.printSubmitted "job-3",
              SubmitEvent.close] :=
  ⟨by decide, by decide,
    submission_enqueues_jobs 3 "alpine" "sleep 2" (by decide) 4 (by decide)⟩

/-! ## Workers started by `main` and units in flight -/

theorem startWorkers_eq (fuel : Nat) (ws : List Int) (h : startWorkers fuel = some ws) :
    ws = [1, 2, 3] := by
  match fuel, h with
  | 0, h => simp [startWorkers, startWorkersFrom] at h
  | 1, h =>
    have h0 : startWorkers 1 = none := by decide
    simp [h0] at h
  | 2, h =>
    have h0 : startWorkers 2 = none := by decide
    simp [h0] at h
  | 3, h =>
    have h0 : startWorkers 3 = none := by decide
    simp [h0] at h
  | k + 4, h =>
    have h1 : wrapInt 2 = 2 := by decide
    have h2 : wrapInt 3 = 3 := by decide
    have h3 : wrapInt 4 = 4 := by decide
    simp [startWorkers, startWorkersFrom, h1, h2, h3, WorkerCount] at h
    exact h.symm

theorem driveOne_iteration (w : Int) (t : Task) (o : Outcomes) (rest : List Event) :
    driveOne false (RunWorker.iteration w t o ++ rest) = driveOne false rest := by
  obtain ⟨c, s, st, wt⟩ := o
  rcases c with cid | e
  · rcases s with _ | e
    · rw [iteration_started w t _ cid rfl rfl]
      rcases st with e | e | u <;> rcases wt with (_ | e) | x <;>
        simp [driveOne, Event.isStarted, Event.isAwaited, Event.isCreate]
    · rw [iteration_start_err w t _ cid e rfl rfl]
      simp [driveOne, Event.isStarted, Event.isAwaited, Event.isCreate]
  · rw [iteration_create_err w t _ e rfl]
    simp [driveOne, Event.isStarted, Event.isAwaited, Event.isCreate]

theorem driveOne_RunWorker (w : Int) (jobs : List (Task × Outcomes)) :
    driveOne false (RunWorker w jobs) = some false := by
  induction jobs with
  | nil => simp [RunWorker, driveOne, Event.isStarted, Event.isAwaited, Event.isCreate]
  | cons j jobs ih =>
    obtain ⟨t, o⟩ := j
    rw [RunWorker, driveOne]
    simp [Event.isStarted, Event.isAwaited, Event.isCreate, driveOne_iteration, ih]

theorem driveOne_append (p s : List Event) :
    ∀ b, driveOne b (p ++ s) = (driveOne b p).bind (fun b1 => driveOne b1 s) := by
  induction p with
  | nil => intro b; simp [driveOne]
  | cons e p ih =>
    intro b
    simp only [List.cons_append, driveOne]
    split_ifs <;> simp [ih]

theorem startedUnits_cons (e : Event) (tr : List Event) :
    startedUnits (e :: tr) =
      startedUnits tr + (if e.isStarted then 1 else 0) - (if e.isAwaited then 1 else 0) := by
  unfold startedUnits
  rw [List.countP_cons, List.countP_cons]
  split_ifs <;> push_cast <;> omega

theorem driveOne_startedUnits (p : List Event) :
    ∀ b b1, driveOne b p = some b1 →
      (if b then 1 else 0) + startedUnits p = (if b1 then (1 : Int) else 0) := by
  induction p with
  | nil =>
    intro b b1 h
    simp [driveOne] at h
    simp [startedUnits, h]
  | cons e p ih =>
    intro b b1 h
    rw [startedUnits_cons]
    rw [driveOne] at h
    by_cases hs : e.isStarted = true
    · have ha : e.isAwaited = false := by
        cases e <;> simp_all [Event.isStarted, Event.isAwaited]
      rw [if_pos hs] at h
      cases b with
      | true => simp at h
      | false =>
        have := ih true b1 (by simpa using h)
        simp [hs, ha] at this ⊢
        omega
    · rw [if_neg hs] at h
      by_cases ha : e.isAwaited = true
      · rw [if_pos ha] at h
        cases b with
        | false => simp at h
        | true =>
          have := ih false b1 (by simpa using h)
          simp [hs, ha] at this ⊢
          omega
      · rw [if_neg ha] at h
        have h2 : driveOne b p = some b1 := by
          by_cases hc : e.isCreate = true
          · rw [if_pos hc] at h
            cases b with
            | true => simp at h
            | false => simpa using h
          · rw [if_neg hc] at h
            exact h
        have := ih b b1 h2
        simp [hs, ha] at this ⊢
        omega

theorem worker_prefix_state (w : Int) (jobs : List (Task × Outcomes)) (p : List Event)
    (hp : p <+: RunWorker w jobs) :
    ∃ b1, driveOne false p = some b1 ∧ startedUnits p = (if b1 then (1 : Int) else 0) := by
  obtain ⟨s, hs⟩ := hp
  have h := driveOne_RunWorker w jobs
  rw [← hs, driveOne_append] at h
  cases hd : driveOne false p with
  | none => simp [hd] at h
  | some b1 =>
    refine ⟨b1, rfl, ?_⟩
    have := driveOne_startedUnits p false b1 hd
    simpa using this

theorem worker_prefix_le_one (w : Int) (jobs : List (Task × Outcomes)) (p : List Event)
    (hp : p <+: RunWorker w jobs) : startedUnits p ≤ 1 := by
  obtain ⟨b1, _, h⟩ := worker_prefix_state w jobs p hp
  rw [h]
  split_ifs <;> omega

theorem worker_create_when_idle (w : Int) (jobs : List (Task × Outcomes)) (p : List Event)
    (e : Event) (he : e.isCreate = true) (hp : p ++ [e] <+: RunWorker w jobs) :
    startedUnits p = 0 := by
  obtain ⟨b1, hd, _⟩ := worker_prefix_state w jobs (p ++ [e]) hp
  rw [driveOne_append] at hd
  cases hd0 : driveOne false p with
  | none => simp [hd0] at hd
  | some b0 =>
    have hs : e.isStarted = false := by
      cases e <;> simp_all [Event.isStarted, Event.isCreate]
    have ha : e.isAwaited = false := by
      cases e <;> simp_all [Event.isAwaited, Event.isCreate]
    have h0 := driveOne_startedUnits p false b0 hd0
    cases b0 with
    | true => simp [hd0, driveOne, hs, ha, he] at hd
    | false => simpa using h0

theorem startedUnits_split (g : List (Int × Event)) (hg : ∀ x ∈ g, x.1 ∈ [(1 : Int), 2, 3]) :
    startedUnits (g.map Prod.snd) =
      startedUnits (eventsOf 1 g) + startedUnits (eventsOf 2 g) +
        startedUnits (eventsOf 3 g) := by
  induction g with
  | nil => simp [eventsOf, startedUnits]
  | cons x g ih =>
    obtain ⟨i, e⟩ := x
    have hi : i = 1 ∨ i = 2 ∨ i = 3 := by
      have := hg (i, e) (List.mem_cons_self _ _)
      simpa using this
    have ih2 := ih (fun y hy => hg y (List.mem_cons_of_mem _ hy))
    simp only [eventsOf] at ih2 ⊢
    rcases hi with rfl | rfl | rfl <;>
      simp [List.filter_cons, startedUnits_cons, ih2] <;> omega

/-- C7: `main` starts the workers 1, 2, 3, that is `WorkerCount` workers.  In every run of
the scheduler up to any instant (the events so far, each performed by one of these workers,
those of a worker being a beginning of its sequential run on the tasks it receives, for any
tasks and any backend answers), the number of units started and not yet awaited to exit is
at most `WorkerCount` = 3; each worker has at most one such unit, and has none whenever it
issues a create. -/
theorem started_units_bounded (fuel : Nat) (ws : List Int)
    (jobs : Int → List (Task × Outcomes)) (g : List (Int × Event))
    (hws : startWorkers fuel = some ws)
    (hg : ∀ x ∈ g, x.1 ∈ ws)
    (hp : ∀ i ∈ ws, eventsOf i g <+: RunWorker i (jobs i)) :
    ws = [1, 2, 3] ∧ (ws.length : Int) = WorkerCount ∧ WorkerCount = 3 ∧
      startedUnits (g.map Prod.snd) ≤ WorkerCount ∧
      (∀ i ∈ ws, startedUnits (eventsOf i g) ≤ 1) ∧
      (∀ i ∈ ws, ∀ p e, e.isCreate = true → p ++ [e] <+: eventsOf i g →
        startedUnits p = 0) := by
  have hw := startWorkers_eq fuel ws hws
  subst hw
  refine ⟨rfl, rfl, rfl, ?_, ?_, ?_⟩
  · rw [startedUnits_split g hg]
    have h1 := worker_prefix_le_one 1 (jobs 1) _ (hp 1 (by simp))
    have h2 := worker_prefix_le_one 2 (jobs 2) _ (hp 2 (by simp))
    have h3 := worker_prefix_le_one 3 (jobs 3) _ (hp 3 (by simp))
    unfold WorkerCount
    omega
  · intro i hi
    exact worker_prefix_le_one i (jobs i) _ (hp i hi)
  · intro i hi p e he hpe
    exact worker_create_when_idle i (jobs i) p e he (hpe.trans (hp i hi))

theorem started_units_bounded_witness :
    startWorkers 4 = some [1, 2, 3] ∧
      startedUnits (sampleRun.map Prod.snd) = 3 ∧
      startedUnits (sampleRun.map Prod.snd) ≤ WorkerCount :=
  ⟨by decide, by decide,
    (started_units_bounded 4 [1, 2, 3] sampleJobs sampleRun (by decide) (by decide)
      (by decide)).2.2.2.1⟩

/-! ## Isolation of task failures -/

theorem iteration_recv (w : Int) (t : Task) (o : Outcomes) :
    (RunWorker.iteration w t o).filterMap Event.recv? = [] := by
  obtain ⟨c, s, st, wt⟩ := o
  rcases c with cid | e
  · rcases s with _ | e
    · rw [iteration_started w t _ cid rfl rfl]
      rcases st with e | e | u <;> rcases wt with (_ | e) | x <;>
        simp [Event.recv?]
    · rw [iteration_start_err w t _ cid e rfl rfl]
      simp [Event.recv?]
  · rw [iteration_create_err w t _ e rfl]
    simp [Event.recv?]

theorem RunWorker_recv (w : Int) (jobs : List (Task × Outcomes)) :
    (RunWorker w jobs).filterMap Event.recv? = jobs.map (fun j => some j.1) ++ [none] := by
  induction jobs with
  | nil => simp [RunWorker, Event.recv?]
  | cons j jobs ih =>
    obtain ⟨t, o⟩ := j
    simp [RunWorker, List.filterMap_append, Event.recv?, iteration_recv, ih]

theorem RunWorker_filterMap {β : Type} (f : Event → Option β) (hr : ∀ t, f (Event.recv t) = none)
    (hd : f Event.wgDone = none) (w : Int) (jobs : List (Task × Outcomes)) :
    (RunWorker w jobs).filterMap f =
      jobs.flatMap (fun j => (RunWorker.iteration w j.1 j.2).filterMap f) := by
  induction jobs with
  | nil => simp [RunWorker, hr, hd]
  | cons j jobs ih =>
    obtain ⟨t, o⟩ := j
    simp [RunWorker, List.filterMap_append, hr, ih]

theorem flatMap_eq_of_forall {α β : Type} (l : List α) (f g : α → List β)
    (h : ∀ a ∈ l, f a = g a) : l.flatMap f = l.flatMap g := by
  induction l with
  | nil => rfl
  | cons a l ih =>
    simp only [List.flatMap_cons]
    rw [h a (List.mem_cons_self _ _), ih (fun b hb => h b (List.mem_cons_of_mem _ hb))]

theorem iteration_reports_success (w : Int) (t : Task) (o : Outcomes) (cid : String)
    (status : Int) (hc : o.create = .ok cid) (hs : o.start = none)
    (hw : o.wait = .statusCh status) :
    (RunWorker.iteration w t o).filterMap Event.report? =
      Report.starting w t.ID ::
        ((match o.stats with
          | .body usage => [Report.monitor t.ID ⟨usage⟩]
          | _ => []) ++ [Report.finished w t.ID]) := by
  rw [iteration_started w t o cid hc hs, hw]
  rcases o.stats with e1 | e1 | u <;> simp [Event.report?]

/-- C4: a worker fed any finite sequence of tasks receives all of them in queue order before
its loop ends and makes one create call per task in that order, whatever the backend
answers.  Fed the tasks `pre`, then `t`, then `post`, its actions for `t` are those of the
loop body on `t` with the backend answers for `t`, whatever the other tasks and their
answers, and its actions for the other tasks do not depend on the answers for `t`.  In particular, when the create of `t` fails and every other task has a
successful create, start and wait, the other tasks each run create, start, stats, wait and
remove and are reported finished, and `t` has its create call only and is logged as
failed. -/
theorem task_failure_is_isolated (w : Int) (pre post : List (Task × Outcomes))
    (t : Task) (o : Outcomes) :
    (∀ jobs : List (Task × Outcomes),
        (RunWorker w jobs).filterMap Event.recv? = jobs.map (fun j => some j.1) ++ [none] ∧
        ((RunWorker w jobs).filterMap Event.createRequest?).map CreateRequest.Name =
          jobs.map (fun j => j.1.ID)) ∧
      RunWorker w (pre ++ (t, o) :: post) =
        pre.flatMap (fun j => Event.recv (some j.1) :: RunWorker.iteration w j.1 j.2) ++
          Event.recv (some t) :: RunWorker.iteration w t o ++ RunWorker w post ∧
      (∀ e, o.create = .err e →
        (∀ j ∈ pre ++ post, ∃ cid status,
          j.2.create = .ok cid ∧ j.2.start = none ∧ j.2.wait = .statusCh status) →
        (RunWorker w (pre ++ (t, o) :: post)).filterMap Event.call? =
            pre.flatMap (fun j =>
              match j.2.create with
              | .ok cid => lifecycleCalls j.1 cid
              | .err _ => []) ++
            [Call.create ⟨t.Image, ["sh", "-c", t.Cmd], MemoryLimit, t.ID⟩] ++
            post.flatMap (fun j =>
              match j.2.create with
              | .ok cid => lifecycleCalls j.1 cid
              | .err _ => []) ∧
          (RunWorker w (pre ++ (t, o) :: post)).filterMap Event.report? =
            pre.flatMap (fun j =>
              Report.starting w j.1.ID ::
                ((match j.2.stats with
                  | .body usage => [Report.monitor j.1.ID ⟨usage⟩]
                  | _ => []) ++ [Report.finished w j.1.ID])) ++
            [Report.starting w t.ID, Report.createFailed t.ID e] ++
            post.flatMap (fun j =>
              Report.starting w j.1.ID ::
                ((match j.2.stats with
                  | .body usage => [Report.monitor j.1.ID ⟨usage⟩]
                  | _ => []) ++ [Report.finished w j.1.ID]))) := by
  refine ⟨fun jobs => ⟨RunWorker_recv w jobs, ?_⟩, ?_, ?_⟩
  · rw [RunWorker_filterMap Event.createRequest? (fun _ => rfl) rfl]
    simp only [iteration_createRequest]
    induction jobs with
    | nil => rfl
    | cons j jobs ih => simp [ih]
  · rw [RunWorker_append]
    simp [RunWorker]
  · intro e hc hall
    have hcalls : ∀ j ∈ pre ++ post,
        (RunWorker.iteration w j.1 j.2).filterMap Event.call? =
          (match j.2.create with
            | .ok cid => lifecycleCalls j.1 cid
            | .err _ => []) := by
      intro j hj
      obtain ⟨cid, status, h1, h2, _⟩ := hall j hj
      rw [iteration_calls_started w j.1 j.2 cid h1 h2, h1]
      rfl
    have hreps : ∀ j ∈ pre ++ post,
        (RunWorker.iteration w j.1 j.2).filterMap Event.report? =
          Report.starting w j.1.ID ::
            ((match j.2.stats with
              | .body usage => [Report.monitor j.1.ID ⟨usage⟩]
              | _ => []) ++ [Report.finished w j.1.ID]) := by
      intro j hj
      obtain ⟨cid, status, h1, h2, h3⟩ := hall j hj
      exact iteration_reports_success w j.1 j.2 cid status h1 h2 h3
    constructor
    · rw [RunWorker_filterMap Event.call? (fun _ => rfl) rfl]
      rw [List.flatMap_append, List.flatMap_cons]
      rw [flatMap_eq_of_forall pre _ _ (fun j hj => hcalls j (List.mem_append_left _ hj)),
        flatMap_eq_of_forall post _ _ (fun j hj => hcalls j (List.mem_append_right _ hj)),
        iteration_create_err w t o e hc]
      simp [Event.call?]
    · rw [RunWorker_filterMap Event.report? (fun _ => rfl) rfl]
      rw [List.flatMap_append, List.flatMap_cons]
      rw [flatMap_eq_of_forall pre _ _ (fun j hj => hreps j (List.mem_append_left _ hj)),
        flatMap_eq_of_forall post _ _ (fun j hj => hreps j (List.mem_append_right _ hj)),
        iteration_create_err w t o e hc]
      simp [Event.report?]

theorem task_failure_is_isolated_witness :
    (RunWorker 1
        ([(⟨"job-1", "alpine", "sleep 2"⟩,
            Outcomes.mk (.ok "c1") none (.err "no stats") (.statusCh 0))] ++
         (⟨"job-2", "alpine", "sleep 2"⟩,
            Outcomes.mk (.err "name in use") none (.body 0) (.statusCh 0)) ::
         [(⟨"job-3", "alpine", "sleep 2"⟩,
            Outcomes.mk (.ok "c3") none (.body 2097152) (.statusCh 0))])).filterMap
          Event.report? =
      [Report.starting 1 "job-1", Report.finished 1 "job-1",
       Report.starting 1 "job-2", Report.createFailed "job-2" "name in use",
       Report.starting 1 "job-3", Report.monitor "job-3" ⟨2097152⟩,
       Report.finished 1 "job-3"] :=
  ((task_failure_is_isolated 1
      [(⟨"job-1", "alpine", "sleep 2"⟩,
          Outcomes.mk (.ok "c1") none (.err "no stats") (.statusCh 0))]
      [(⟨"job-3", "alpine", "sleep 2"⟩,
          Outcomes.mk (.ok "c3") none (.body 2097152) (.statusCh 0))]
      ⟨"job-2", "alpine", "sleep 2"⟩
      (Outcomes.mk (.err "name in use") none (.body 0) (.statusCh 0))).2.2
    "name in use" rfl (by
      intro j hj
      simp only [List.cons_append, List.nil_append, List.mem_cons, List.mem_singleton,
        List.not_mem_nil, or_false] at hj
      rcases hj with rfl | rfl
      · exact ⟨"c1", 0, rfl, rfl, rfl⟩
      · exact ⟨"c3", 0, rfl, rfl, rfl⟩)).2

end MiniScheduler
